import Mathlib

/-!
Verification development for the `githubapifetch` repository.

The Go source is shallowly embedded: each Go function that the verified
properties mention is translated into a Lean function over explicit state.

Conventions of the embedding:
* `time.Time` values are modelled as `Nat` (seconds); the Go zero value
  `time.Time{}` is `0`.
* Go errors are modelled by `GoError`.  `fmt.Errorf("...: %w", err)` is
  `GoError.wrapCtx msg err` (message text elided to a fixed tag, the
  formatted arguments carry no semantics), `fmt.Errorf` without a `%w`
  of another error is `GoError.errorf msg`, and the package sentinel
  errors (`db.ErrNoCommitsFound`, ...) are `GoError.sentinel k`.
  Go `==` on errors compares the error values themselves, which for this
  embedding is structural equality; `errors.Is` walks the wrap chain and
  is modelled by `errorsIs`.
* The PostgreSQL database behind `db.DB` is modelled as a `Store` holding
  the two tables of `migrations/000001_init_schema.up.sql`; the SQL
  statements executed by the Go code are translated to list operations
  with standard SQL semantics (in particular, an aggregate `SELECT MAX`
  without `GROUP BY` always produces exactly one row, whose value is
  NULL when no rows match).
* Goroutine pools (`maxWorkers = 5` semaphores in `BatchInsert` and
  `checkRepositories`) bound concurrency only; every worker always runs
  and results are aggregated after `wg.Wait()`.  The embedding processes
  the units of work in list order; all properties proved below are
  insensitive to the interleaving order.
-/

namespace GithubApiFetch

/-- Sentinel error values declared in `db/errors.go`. -/
inductive ErrKind where
  | noCommitsFound
  | repositoryNotFound
  | invalidInput
  | databaseConnection
  | transactionFailed
deriving DecidableEq, Repr

/-- Go error values as the repository builds them: package sentinels,
`fmt.Errorf` wrapping another error via `%w`, and `fmt.Errorf` that
creates a fresh error (its `%v`-formatted arguments do not join the
`errors.Is` chain). -/
inductive GoError where
  | sentinel : ErrKind → GoError
  | wrapCtx : String → GoError → GoError
  | errorf : String → GoError
deriving DecidableEq, Repr

/-- Semantics of Go `errors.Is(err, target)`: the target is found at the
head or anywhere down the `%w` chain. -/
def errorsIs : GoError → GoError → Bool
  | e, t =>
    match e with
    | .sentinel k => GoError.sentinel k = t
    | .wrapCtx _ inner => (GoError.wrapCtx "" inner = t) || errorsIs inner t
    | .errorf m => GoError.errorf m = t

/-- A row of the `repositories` table (`models.Repository` in
`models/models.go`, columns of `db/repository.go`). -/
structure RepoRow where
  id : Nat
  name : String
  owner : String
  description : String
  url : String
  language : String
  forksCount : Nat
  starsCount : Nat
  openIssuesCount : Nat
  watchersCount : Nat
  createdAt : Nat
  updatedAt : Nat
deriving DecidableEq, Repr

/-- A row of the `commits` table (`models.Commit` in `models/models.go`,
columns used by `db.BatchInsert`). -/
structure CommitRow where
  sha : String
  repoId : Nat
  message : String
  authorName : String
  date : Nat
  url : String
deriving DecidableEq, Repr

/-- The relational store behind `db.DB`: the two tables of the schema,
plus the next SERIAL value for `repositories.id`. -/
structure Store where
  repos : List RepoRow
  commits : List CommitRow
  nextId : Nat
deriving DecidableEq, Repr

/-- One decoded element of the commits-list response
(`github.CommitResponse`, nested author struct flattened). -/
structure CommitResponse where
  sha : String
  message : String
  authorName : String
  authorDate : Nat
  htmlURL : String
deriving DecidableEq, Repr

/-- One HTTP response as the client reads it: status code, the three
rate-limit headers it consults, the `Link` header, and the decoded JSON
body (`none` models a decode failure). -/
structure HttpResponse where
  status : Nat
  rateRemaining : String
  rateReset : Nat
  linkHeader : String
  body : Option (List CommitResponse)
deriving DecidableEq, Repr

/-- Translation of `github.containsNextPage` (`github/client.go`): the
`Link` header is nonempty and its last byte is the character `>`. -/
def containsNextPage (linkHeader : String) : Bool :=
  linkHeader ≠ "" && linkHeader.back = '>'

/-- Translation of `github.Client.handleRateLimit`: on a 403 whose
`X-RateLimit-Remaining` header is the string `0`, sleep until the reset
time and return nil; otherwise return nil immediately.  The first
component records the reset instant waited for (`none` when no sleep
happened); the second is the returned error, which is always nil. -/
def handleRateLimit (resp : HttpResponse) : Option Nat × Option GoError :=
  if resp.status = 403 ∧ resp.rateRemaining = "0" then
    (some resp.rateReset, none)
  else
    (none, none)

/-- Decidable equality for Go-style `(value, error)` results. -/
instance {ε α : Type} [DecidableEq ε] [DecidableEq α] :
    DecidableEq (Except ε α) :=
  fun a b =>
    match a, b with
    | .ok x, .ok y => decidable_of_iff (x = y) (by simp)
    | .error x, .error y => decidable_of_iff (x = y) (by simp)
    | .ok _, .error _ => isFalse (by simp)
    | .error _, .ok _ => isFalse (by simp)

/-- Result of a `FetchCommits` run: the returned value or error, the
number of page requests issued, and the reset instants slept until. -/
structure FetchOutcome where
  result : Except GoError (List CommitResponse)
  requests : Nat
  waitedUntil : List Nat
deriving DecidableEq, Repr

/-- The page-request loop of `github.Client.FetchCommits`, driven by the
finite script of responses the server will give to successive requests
(the repository's own tests script their mock server exactly this way).
Each iteration issues one request and consumes one response; the loop
body mirrors the source: run `handleRateLimit`, fail on a non-200
status, fail on a decode error, stop on an empty page, append the page,
stop unless the `Link` header passes `containsNextPage`, else request
the next page.  An exhausted script models a transport failure from
`httpClient.Do`. -/
def fetchCommitsLoop : List HttpResponse → List CommitResponse → Nat →
    List Nat → FetchOutcome
  | [], _, n, waits =>
      { result := .error (.errorf "failed to fetch commits"),
        requests := n, waitedUntil := waits }
  | resp :: rest, acc, n, waits =>
      let n' := n + 1
      let waits' :=
        match (handleRateLimit resp).1 with
        | some t => waits ++ [t]
        | none => waits
      -- `handleRateLimit` always returns nil, so the `return nil, err`
      -- branch of the source never fires; fall through to the status check.
      if resp.status ≠ 200 then
        { result := .error (.errorf "failed to fetch commits: status code"),
          requests := n', waitedUntil := waits' }
      else
        match resp.body with
        | none =>
            { result := .error (.errorf "failed to decode commits response"),
              requests := n', waitedUntil := waits' }
        | some commits =>
            if commits = [] then
              { result := .ok acc, requests := n', waitedUntil := waits' }
            else
              let acc' := acc ++ commits
              if resp.linkHeader = "" ∨ ¬containsNextPage resp.linkHeader then
                { result := .ok acc', requests := n', waitedUntil := waits' }
              else
                fetchCommitsLoop rest acc' n' waits'

/-- Translation of `github.Client.FetchCommits` (`github/client.go`):
start at page 1 with no accumulated commits. -/
def FetchCommits (responses : List HttpResponse) : FetchOutcome :=
  fetchCommitsLoop responses [] 0 []

/-- Translation of `db.StoreRepository` (`db/repository.go`): reject an
empty name or owner with `ErrInvalidInput`, then run the SQL upsert
`INSERT ... ON CONFLICT (name, owner) DO UPDATE SET url, updated_at,
description, language, forks_count, stars_count, open_issues_count,
watchers_count` (note: `created_at` and `id` are not in the update
list).  The input is a `models.Repository` snapshot; its `id` field is
not among the inserted columns, a fresh row takes the next SERIAL
value.  Driver faults of `ExecContext` are outside this model. -/
def StoreRepository (s : Store) (repo : RepoRow) : Store × Option GoError :=
  if repo.name = "" ∨ repo.owner = "" then
    (s, some (.wrapCtx "repository name and owner cannot be empty"
      (.sentinel .invalidInput)))
  else if s.repos.any (fun r => r.name = repo.name ∧ r.owner = repo.owner) then
    ({ s with repos := s.repos.map (fun r =>
        if r.name = repo.name ∧ r.owner = repo.owner then
          { r with
            url := repo.url, updatedAt := repo.updatedAt,
            description := repo.description, language := repo.language,
            forksCount := repo.forksCount, starsCount := repo.starsCount,
            openIssuesCount := repo.openIssuesCount,
            watchersCount := repo.watchersCount }
        else r) }, none)
  else
    ({ s with
       repos := s.repos ++ [{ repo with id := s.nextId }],
       nextId := s.nextId + 1 }, none)

/-- Translation of `db.GetByName` (`db/repository.go`): reject an empty
name, then `SELECT ... FROM repositories WHERE name = $1` read through
`GetContext`, which scans the first matching row; `sql.ErrNoRows` (no
matching row) becomes `ErrRepositoryNotFound`.  The owner is not part
of the query. -/
def GetByName (s : Store) (name : String) : Except GoError RepoRow :=
  if name = "" then
    .error (.wrapCtx "repository name cannot be empty" (.sentinel .invalidInput))
  else
    match s.repos.find? (fun r => r.name = name) with
    | some r => .ok r
    | none =>
        .error (.wrapCtx "repository not found" (.sentinel .repositoryNotFound))

/-- Outcomes of a database driver call as `GetContext` reports them. -/
inductive SqlError where
  | noRows
  | driver : String → SqlError
deriving DecidableEq, Repr

/-- The dates produced by the join of `db.GetLatestDate`:
`FROM commits c JOIN repositories r ON c.repository_id = r.id
WHERE r.name = $1`, projected to `c.date`. -/
def joinedDates (s : Store) (repoName : String) : List Nat :=
  (s.commits.filter
    (fun c => s.repos.any (fun r => c.repoId = r.id ∧ r.name = repoName))).map
    (fun c => c.date)

/-- SQL semantics of `SELECT MAX(c.date) ...` without `GROUP BY`: the
query always produces exactly one row, whose value is NULL (`none`)
when the joined set is empty. -/
def maxDateRow (s : Store) (repoName : String) : Option Nat :=
  (joinedDates s repoName).max?

/-- The driver call `db.conn.GetContext` on the aggregate query of
`GetLatestDate`: since an ungrouped aggregate always returns one row,
the call always succeeds with that row; in particular it never reports
`sql.ErrNoRows`.  (The repository's unit test only produces `ErrNoRows`
here by stubbing the driver with go-sqlmock, which real SQL execution
cannot do.) -/
def aggGetContext (s : Store) (repoName : String) :
    Except SqlError (Option Nat) :=
  .ok (maxDateRow s repoName)

/-- Translation of `db.GetLatestDate` (`db/models.go`): reject an empty
name with `ErrInvalidInput`; on `sql.ErrNoRows` report
`ErrRepositoryNotFound`; on another driver error wrap it; on a NULL
aggregate report `ErrNoCommitsFound`; otherwise return the date.  All
sentinel errors are wrapped by `fmt.Errorf("%w: ...")`. -/
def GetLatestDate (s : Store) (repoName : String) : Except GoError Nat :=
  if repoName = "" then
    .error (.wrapCtx "repository name cannot be empty" (.sentinel .invalidInput))
  else
    match aggGetContext s repoName with
    | .error .noRows =>
        .error (.wrapCtx "repository not found" (.sentinel .repositoryNotFound))
    | .error (.driver m) =>
        .error (.wrapCtx "failed to get latest commit date" (.errorf m))
    | .ok none =>
        .error (.wrapCtx "repository" (.sentinel .noCommitsFound))
    | .ok (some d) => .ok d

/-- Driver behaviour for one `BatchInsert` transaction: the outcomes of
`BeginTx`, `PrepareContext`, `Commit`, and of `stmt.ExecContext` per
record. -/
structure DBEnv where
  beginErr : Option GoError
  prepareErr : Option GoError
  commitErr : Option GoError
  execErr : CommitRow → Option GoError

/-- Effect of one `stmt.ExecContext` of the `BatchInsert` statement on
the `commits` table: `INSERT ... ON CONFLICT (sha) DO UPDATE SET
message, author_name, date, url WHERE commits.date < EXCLUDED.date`
(note: `repository_id` is not in the update list, and the update fires
only for a strictly newer incoming date). -/
def upsertCommitRow (rows : List CommitRow) (c : CommitRow) : List CommitRow :=
  if rows.any (fun r => r.sha = c.sha) then
    rows.map (fun r =>
      if r.sha = c.sha ∧ r.date < c.date then
        { r with
          message := c.message, authorName := c.authorName,
          date := c.date, url := c.url }
      else r)
  else
    rows ++ [c]

/-- One worker goroutine of `db.BatchInsert` processing its chunk
inside the shared transaction: records are executed in order; the first
failing `ExecContext` makes the worker send the wrapped error on
`errChan` and return, leaving the rest of its chunk unwritten. -/
def processChunk (env : DBEnv) :
    List CommitRow → List CommitRow → List CommitRow × Option GoError
  | rows, [] => (rows, none)
  | rows, c :: cs =>
    match env.execErr c with
    | some e => (rows, some (.wrapCtx "failed to insert commit" e))
    | none => processChunk env (upsertCommitRow rows c) cs

/-- All chunk workers of one `BatchInsert` call: every chunk runs
(an error in one chunk does not cancel the others; the pool only bounds
concurrency to `maxWorkers = 5`), and the errors sent on `errChan` are
collected after `wg.Wait()`.  The interleaving of chunks inside the
transaction is modelled as chunk order. -/
def processChunks (env : DBEnv) :
    List CommitRow → List (List CommitRow) → List CommitRow × List GoError
  | rows, [] => (rows, [])
  | rows, ch :: chs =>
    let step := processChunk env rows ch
    let rest := processChunks env step.1 chs
    (rest.1, match step.2 with
             | some e => e :: rest.2
             | none => rest.2)

/-- The chunking loop of `db.BatchInsert`: slices of `batchSize = 1000`
records, in order. -/
def chunkList : List CommitRow → List (List CommitRow)
  | [] => []
  | c :: cs => (c :: cs.take 999) :: chunkList (cs.drop 999)
termination_by l => l.length
decreasing_by
  simp only [List.length_drop, List.length_cons]
  omega

/-- Translation of `db.BatchInsert` (`db/models.go`): an empty list is
an immediate nil return with no transaction; a failing `BeginTx` or
`Commit` returns `ErrTransactionFailed` wrapped via `%w`; a failing
prepare wraps the driver error only; chunk workers run under the
semaphore and their errors are aggregated after all complete — when any
exist, the function returns `fmt.Errorf("errors occurred while
inserting commits: %v", errs)` (a fresh error: `%v` does not join the
wrap chain) and the deferred `tx.Rollback()` discards every write of
the call; only an error-free run commits the new table state. -/
def BatchInsert (env : DBEnv) (s : Store) (commits : List CommitRow) :
    Store × Option GoError :=
  if commits.isEmpty then (s, none)
  else
    match env.beginErr with
    | some _ => (s, some (.wrapCtx "begin tx" (.sentinel .transactionFailed)))
    | none =>
      match env.prepareErr with
      | some e =>
          (s, some (.wrapCtx "failed to prepare commit insert statement" e))
      | none =>
        if (processChunks env s.commits (chunkList commits)).2 = [] then
          match env.commitErr with
          | some _ =>
              (s, some (.wrapCtx "failed to commit transaction"
                (.sentinel .transactionFailed)))
          | none =>
              ({ s with
                 commits := (processChunks env s.commits (chunkList commits)).1 },
               none)
        else
          (s, some (.errorf "errors occurred while inserting commits"))

/-- Everything one tick of `db.checkRepositories` did: the errors
collected from `errChan` and the `(repoName, latestDate)` callback
invocations performed. -/
structure TickOutcome where
  errors : List GoError
  invoked : List (String × Nat)
deriving DecidableEq, Repr

/-- One worker goroutine of `db.checkRepositories` for one repository
row: call `GetLatestDate`; on error, return silently when
`err == ErrNoCommitsFound` (Go `==` compares the error values, so only
the bare sentinel matches — `GetLatestDate` in fact wraps it), else
send the wrapped error; on success invoke the callback, sending its
wrapped error on failure.  The result pairs the error sent on `errChan`
(if any) with the successful callback invocation (if any). -/
def repoWorker (s : Store) (cb : String → Nat → Option GoError)
    (r : RepoRow) : Option GoError × Option (String × Nat) :=
  match GetLatestDate s r.name with
  | .error e =>
      if e = .sentinel .noCommitsFound then (none, none)
      else (some (.wrapCtx "error getting latest date for repository" e), none)
  | .ok d =>
      match cb r.name d with
      | some e => (some (.wrapCtx "error processing repository" e), none)
      | none => (none, some (r.name, d))

/-- Translation of `db.checkRepositories` (`db/monitoring.go`):
`SELECT * FROM repositories`, then one worker per row under the
`maxWorkers = 5` semaphore — every worker runs regardless of the
others' failures, and each worker's result depends only on its own row.
After `wg.Wait()` the errors are collected; a nonempty collection makes
the tick return a fresh aggregate error (`%v`, no wrap chain).  Driver
faults of the SELECT are outside this model. -/
def checkRepositories (s : Store) (cb : String → Nat → Option GoError) :
    TickOutcome × Option GoError :=
  let outcome : TickOutcome :=
    { errors := s.repos.filterMap (fun r => (repoWorker s cb r).1),
      invoked := s.repos.filterMap (fun r => (repoWorker s cb r).2) }
  (outcome,
    if outcome.errors = [] then none
    else some (.errorf "errors occurred while processing repositories"))

/-- Translation of `db.MonitorRepositoryChanges` (`db/monitoring.go`):
the ticker goroutine runs `checkRepositories` once per tick; an error
from a tick is only logged (`log.Printf`) and the loop unconditionally
waits for the next tick, stopping only on context cancellation.  The
list holds the store state observed at each tick before cancellation;
the result is every tick's outcome. -/
def MonitorRepositoryChanges (snapshots : List Store)
    (cb : String → Nat → Option GoError) : List (TickOutcome × Option GoError) :=
  snapshots.map (fun s => checkRepositories s cb)

/-- Decoded body of the single-repository endpoint
(`github.RepoResponse`). -/
structure RepoResponse where
  description : String
  htmlURL : String
  language : String
  forksCount : Nat
  stargazersCount : Nat
  openIssuesCount : Nat
  watchersCount : Nat
  createdAt : Nat
  updatedAt : Nat
deriving DecidableEq, Repr

/-- The collaborators `processRepository` / `RepositoryProcessor.Process`
call through `DBInterface` and `GitHubClientInterface`, as the
behaviour each single call will produce (the service tests substitute
mocks in exactly these positions). -/
structure Collab where
  fetchRepo : Except GoError RepoResponse
  storeRepositoryErr : RepoRow → Option GoError
  getByName : Except GoError RepoRow
  fetchCommits : Except GoError (List CommitResponse)
  batchInsertErr : List CommitRow → Option GoError

/-- What one orchestrator pass did: its returned error (`none` is the
nil success return) and the argument of the `BatchInsert` call when one
was made. -/
structure ProcOutcome where
  result : Option GoError
  batchInserted : Option (List CommitRow)
deriving DecidableEq, Repr

/-- Translation of `service.RepositoryProcessor.Process`
(`service/service.go`): check cancellation; fetch the repository
snapshot; map it to `models.Repository` (the stored `id` is not taken
from the snapshot); store it; re-read the stored row by name to obtain
its assigned id; fetch commits since the cursor; on an empty list
return nil immediately (no `BatchInsert`); otherwise map each commit to
`models.Commit` attaching the re-read id, and `BatchInsert` them.
Every error is wrapped with step context and returned. -/
def Process (c : Collab) (ctxCancelled : Bool) (owner name : String)
    (_sinceArg : Nat) : ProcOutcome :=
  if ctxCancelled then
    { result := some (.errorf "context cancelled"), batchInserted := none }
  else
    match c.fetchRepo with
    | .error e =>
        { result := some (.wrapCtx "failed to fetch repository" e),
          batchInserted := none }
    | .ok repo =>
      let repoModel : RepoRow :=
        { id := 0, name := name, owner := owner,
          description := repo.description, url := repo.htmlURL,
          language := repo.language, forksCount := repo.forksCount,
          starsCount := repo.stargazersCount,
          openIssuesCount := repo.openIssuesCount,
          watchersCount := repo.watchersCount,
          createdAt := repo.createdAt, updatedAt := repo.updatedAt }
      match c.storeRepositoryErr repoModel with
      | some e =>
          { result := some (.wrapCtx "failed to store repository" e),
            batchInserted := none }
      | none =>
        match c.getByName with
        | .error e =>
            { result := some (.wrapCtx "failed to get stored repository" e),
              batchInserted := none }
        | .ok storedRepo =>
          match c.fetchCommits with
          | .error e =>
              { result := some (.wrapCtx "failed to fetch commits" e),
                batchInserted := none }
          | .ok commits =>
            if commits = [] then
              { result := none, batchInserted := none }
            else
              let commitModels := commits.map (fun cm =>
                ({ sha := cm.sha, repoId := storedRepo.id,
                   message := cm.message, authorName := cm.authorName,
                   date := cm.authorDate, url := cm.htmlURL } : CommitRow))
              match c.batchInsertErr commitModels with
              | some e =>
                  { result := some (.wrapCtx "failed to store commits" e),
                    batchInserted := some commitModels }
              | none =>
                  { result := none, batchInserted := some commitModels }

/-- Translation of `service.processRepository` (`service/service.go`),
the package-level twin of `RepositoryProcessor.Process` used by
`processInitialRepository` and the monitoring callback: identical
pipeline, with the owner and name taken from the configuration. -/
def processRepository (c : Collab) (ctxCancelled : Bool)
    (cfgRepoOwner cfgRepoName : String) (_latestDate : Nat) : ProcOutcome :=
  if ctxCancelled then
    { result := some (.errorf "context cancelled"), batchInserted := none }
  else
    match c.fetchRepo with
    | .error e =>
        { result := some (.wrapCtx "failed to fetch repository" e),
          batchInserted := none }
    | .ok repo =>
      let repoModel : RepoRow :=
        { id := 0, name := cfgRepoName, owner := cfgRepoOwner,
          description := repo.description, url := repo.htmlURL,
          language := repo.language, forksCount := repo.forksCount,
          starsCount := repo.stargazersCount,
          openIssuesCount := repo.openIssuesCount,
          watchersCount := repo.watchersCount,
          createdAt := repo.createdAt, updatedAt := repo.updatedAt }
      match c.storeRepositoryErr repoModel with
      | some e =>
          { result := some (.wrapCtx "failed to store repository" e),
            batchInserted := none }
      | none =>
        match c.getByName with
        | .error e =>
            { result := some (.wrapCtx "failed to get stored repository" e),
              batchInserted := none }
        | .ok storedRepo =>
          match c.fetchCommits with
          | .error e =>
              { result := some (.wrapCtx "failed to fetch commits" e),
                batchInserted := none }
          | .ok commits =>
            if commits = [] then
              { result := none, batchInserted := none }
            else
              let commitModels := commits.map (fun cm =>
                ({ sha := cm.sha, repoId := storedRepo.id,
                   message := cm.message, authorName := cm.authorName,
                   date := cm.authorDate, url := cm.htmlURL } : CommitRow))
              match c.batchInsertErr commitModels with
              | some e =>
                  { result := some (.wrapCtx "failed to store commits" e),
                    batchInserted := some commitModels }
              | none =>
                  { result := none, batchInserted := some commitModels }

/-- State after a sequence of `BatchInsert` calls: at each call the
database keeps the committed state on success and the rolled-back
(unchanged) state on failure, exactly as the callers observe it. -/
def runBatchInserts (env : DBEnv) (s : Store) : List (List CommitRow) → Store
  | [] => s
  | cs :: rest => runBatchInserts env (BatchInsert env s cs).1 rest

/-! Concrete sample data, shaped after the repository's own test
fixtures (`github/client_test.go` and the db tests). -/

/-- A decoded commit, as in the client tests. -/
def sampleCommit1 : CommitResponse :=
  { sha := "abc123", message := "Test commit 1", authorName := "Test Author",
    authorDate := 100,
    htmlURL := "https://github.com/test-owner/test-repo/commit/abc123" }

/-- A second decoded commit, as in the client pagination test. -/
def sampleCommit2 : CommitResponse :=
  { sha := "def456", message := "Test commit 2", authorName := "Test Author",
    authorDate := 100,
    htmlURL := "https://github.com/test-owner/test-repo/commit/def456" }

/-- The rate-limited response of the client test `rate limit handling`:
status 403, `X-RateLimit-Remaining: 0`, reset at 3600. -/
def rateLimitedResponse : HttpResponse :=
  { status := 403, rateRemaining := "0", rateReset := 3600,
    linkHeader := "", body := none }

/-- The healthy follow-up response of the same test: quota restored,
one commit in the body. -/
def afterResetResponse : HttpResponse :=
  { status := 200, rateRemaining := "4999", rateReset := 3600,
    linkHeader := "", body := some [sampleCommit1] }

/-- Page 1 of the client pagination test: one commit and the
`rel="next"` Link header its mock server sends. -/
def pageOneResponse : HttpResponse :=
  { status := 200, rateRemaining := "4999", rateReset := 0,
    linkHeader :=
      "<https://api.github.com/repos/test-owner/test-repo/commits?page=2>; rel=\"next\"",
    body := some [sampleCommit1] }

/-- Page 2 of the client pagination test: one commit, no Link header. -/
def pageTwoResponse : HttpResponse :=
  { status := 200, rateRemaining := "4998", rateReset := 0,
    linkHeader := "", body := some [sampleCommit2] }

/-- A driver that accepts every operation of a `BatchInsert` call. -/
def allOkEnv : DBEnv :=
  { beginErr := none, prepareErr := none, commitErr := none,
    execErr := fun _ => none }

/-- A driver whose `ExecContext` rejects the record with hash
`abc123` (e.g. a constraint violation) and accepts the rest. -/
def failingEnv : DBEnv :=
  { beginErr := none, prepareErr := none, commitErr := none,
    execErr := fun c =>
      if c.sha = "abc123" then some (.errorf "pq: constraint violation")
      else none }

/-- A stored repository row used by the concrete scenarios. -/
def widgetRepoRow : RepoRow :=
  { id := 1, name := "widget", owner := "acme", description := "Test repo",
    url := "https://github.com/acme/widget", language := "Go",
    forksCount := 10, starsCount := 100, openIssuesCount := 5,
    watchersCount := 50, createdAt := 1, updatedAt := 2 }

/-- A store holding one repository and one commit with hash `abc` at
date 5. -/
def storeWithAbcAt5 : Store :=
  { repos := [widgetRepoRow],
    commits := [{ sha := "abc", repoId := 1, message := "newer",
                  authorName := "Test Author", date := 5,
                  url := "https://github.com/acme/widget/commit/abc" }],
    nextId := 2 }

/-- A re-observed record with the same hash `abc` but the older date 3. -/
def staleAbcCommit : CommitRow :=
  { sha := "abc", repoId := 1, message := "stale", authorName := "Other",
    date := 3, url := "https://github.com/acme/widget/commit/abc" }

/-- The record `failingEnv` rejects. -/
def rejectedCommit : CommitRow :=
  { sha := "abc123", repoId := 1, message := "test commit",
    authorName := "test author", date := 7,
    url := "https://github.com/acme/widget/commit/abc123" }

/-- An entity snapshot with identity (acme, widget), creation time 1. -/
def snapshotA : RepoRow :=
  { id := 0, name := "widget", owner := "acme", description := "first",
    url := "https://github.com/acme/widget", language := "Go",
    forksCount := 1, starsCount := 2, openIssuesCount := 3,
    watchersCount := 4, createdAt := 1, updatedAt := 10 }

/-- A second snapshot of the same identity with different values in
every non-identity attribute, creation time 2. -/
def snapshotB : RepoRow :=
  { id := 0, name := "widget", owner := "acme", description := "second",
    url := "https://github.com/acme/widget2", language := "Rust",
    forksCount := 5, starsCount := 6, openIssuesCount := 7,
    watchersCount := 8, createdAt := 2, updatedAt := 20 }

/-- The empty database. -/
def emptyStore : Store := { repos := [], commits := [], nextId := 1 }

/-- A store in which repository `widget` exists but owns no commits. -/
def storeNoCommits : Store :=
  { repos := [widgetRepoRow], commits := [], nextId := 2 }

/-- A callback that succeeds for every entity. -/
def cbOk : String → Nat → Option GoError := fun _ _ => none

/-- A callback that fails for `repo1` and succeeds elsewhere. -/
def cbFailRepo1 : String → Nat → Option GoError := fun n _ =>
  if n = "repo1" then some (.errorf "boom") else none

/-- First of two independently tracked repositories. -/
def repo1Row : RepoRow :=
  { id := 1, name := "repo1", owner := "acme", description := "",
    url := "", language := "Go", forksCount := 0, starsCount := 0,
    openIssuesCount := 0, watchersCount := 0, createdAt := 0, updatedAt := 0 }

/-- Second of two independently tracked repositories. -/
def repo2Row : RepoRow :=
  { id := 2, name := "repo2", owner := "acme", description := "",
    url := "", language := "Go", forksCount := 0, starsCount := 0,
    openIssuesCount := 0, watchersCount := 0, createdAt := 0, updatedAt := 0 }

/-- A store tracking `repo1` and `repo2`, each with one commit. -/
def storeTwoRepos : Store :=
  { repos := [repo1Row, repo2Row],
    commits := [{ sha := "s1", repoId := 1, message := "m1",
                  authorName := "a", date := 10, url := "u1" },
                { sha := "s2", repoId := 2, message := "m2",
                  authorName := "a", date := 20, url := "u2" }],
    nextId := 3 }

/-- Repository `r` as stored for owner `alice`. -/
def aliceRepoRow : RepoRow :=
  { id := 1, name := "r", owner := "alice", description := "",
    url := "", language := "Go", forksCount := 0, starsCount := 0,
    openIssuesCount := 0, watchersCount := 0, createdAt := 0, updatedAt := 0 }

/-- Repository `r` as stored for owner `bob`. -/
def bobRepoRow : RepoRow :=
  { id := 2, name := "r", owner := "bob", description := "",
    url := "", language := "Go", forksCount := 0, starsCount := 0,
    openIssuesCount := 0, watchersCount := 0, createdAt := 0, updatedAt := 0 }

/-- Two owners share the repository name `r`; the newest commit (date
9) belongs to bob's copy, an older one (date 4) to alice's. -/
def storeTwoOwners : Store :=
  { repos := [aliceRepoRow, bobRepoRow],
    commits := [{ sha := "a", repoId := 2, message := "m",
                  authorName := "x", date := 9, url := "u" },
                { sha := "b", repoId := 1, message := "m",
                  authorName := "x", date := 4, url := "u" }],
    nextId := 3 }

/-- The snapshot of the single-repository endpoint used by the
orchestrator scenarios. -/
def sampleRepoResponse : RepoResponse :=
  { description := "Test repo", htmlURL := "https://github.com/acme/widget",
    language := "Go", forksCount := 10, stargazersCount := 100,
    openIssuesCount := 5, watchersCount := 50, createdAt := 1,
    updatedAt := 2 }

/-- Collaborators for an orchestrator pass in which every upstream step
succeeds and the commit fetch comes back empty. -/
def collabEmptyFetch : Collab :=
  { fetchRepo := .ok sampleRepoResponse,
    storeRepositoryErr := fun _ => none,
    getByName := .ok widgetRepoRow,
    fetchCommits := .ok [],
    batchInsertErr := fun _ => none }

/-! Theorems.  First, shared auxiliary lemmas about the batch-writer
loops. -/

/-- Chunking the empty list yields no chunks. -/
theorem chunkList_nil : chunkList [] = [] := by
  simp [chunkList]

/-- Chunking equation for a nonempty list: one slice of (up to) 1000
records, then the rest. -/
theorem chunkList_cons (c : CommitRow) (cs : List CommitRow) :
    chunkList (c :: cs) = (c :: cs.take 999) :: chunkList (cs.drop 999) := by
  simp [chunkList]

/-- Every record of the input list lands in some chunk. -/
theorem chunkList_covers :
    ∀ {cs : List CommitRow} {c : CommitRow}, c ∈ cs →
      ∃ ch ∈ chunkList cs, c ∈ ch
  | [], _, h => absurd h (List.not_mem_nil _)
  | d :: ds, c, h => by
    rw [chunkList_cons]
    rcases List.mem_cons.mp h with rfl | hds
    · exact ⟨c :: ds.take 999, List.mem_cons_self .., List.mem_cons_self ..⟩
    · rcases List.mem_append.mp ((List.take_append_drop 999 ds) ▸ hds) with
        htake | hdrop
      · exact ⟨d :: ds.take 999, List.mem_cons_self ..,
          List.mem_cons_of_mem _ htake⟩
      · obtain ⟨ch, hch, hcch⟩ := chunkList_covers hdrop
        exact ⟨ch, List.mem_cons_of_mem _ hch, hcch⟩
termination_by cs => cs.length
decreasing_by
  simp only [List.length_drop, List.length_cons]
  omega


/-- One upsert statement can only keep a stored record's row or move
its date up; the hash survives either way. -/
theorem upsertCommitRow_pres (c : CommitRow) {rows : List CommitRow}
    {r : CommitRow} (hr : r ∈ rows) :
    ∃ r' ∈ upsertCommitRow rows c, r'.sha = r.sha ∧ r.date ≤ r'.date := by
  unfold upsertCommitRow
  split
  · refine ⟨_, List.mem_map_of_mem _ hr, ?_⟩
    by_cases hc : r.sha = c.sha ∧ r.date < c.date
    · rw [if_pos hc]
      exact ⟨rfl, le_of_lt hc.2⟩
    · rw [if_neg hc]
      exact ⟨rfl, le_rfl⟩
  · exact ⟨r, List.mem_append_left _ hr, rfl, le_rfl⟩

/-- A chunk worker preserves every stored hash and never lowers its
date, whether or not it stops early on an error. -/
theorem processChunk_pres (env : DBEnv) :
    ∀ (chunk : List CommitRow) {rows : List CommitRow} {r : CommitRow},
      r ∈ rows →
      ∃ r' ∈ (processChunk env rows chunk).1, r'.sha = r.sha ∧ r.date ≤ r'.date
  | [], _, r, hr => ⟨r, hr, rfl, le_rfl⟩
  | c :: cs, rows, r, hr => by
    unfold processChunk
    cases hd : env.execErr c with
    | some e =>
      simp only [hd]
      exact ⟨r, hr, rfl, le_rfl⟩
    | none =>
      simp only [hd]
      obtain ⟨r1, h1, hsha1, hd1⟩ := upsertCommitRow_pres c hr
      obtain ⟨r2, h2, hsha2, hd2⟩ := processChunk_pres env cs h1
      exact ⟨r2, h2, hsha2.trans hsha1, hd1.trans hd2⟩

/-- All chunk workers together preserve every stored hash and never
lower its date. -/
theorem processChunks_pres (env : DBEnv) :
    ∀ (chunks : List (List CommitRow)) {rows : List CommitRow}
      {r : CommitRow}, r ∈ rows →
      ∃ r' ∈ (processChunks env rows chunks).1,
        r'.sha = r.sha ∧ r.date ≤ r'.date
  | [], _, r, hr => ⟨r, hr, rfl, le_rfl⟩
  | ch :: chs, rows, r, hr => by
    obtain ⟨r1, h1, hsha1, hd1⟩ := processChunk_pres env ch hr
    obtain ⟨r2, h2, hsha2, hd2⟩ := processChunks_pres env chs h1
    exact ⟨r2, h2, hsha2.trans hsha1, hd1.trans hd2⟩

/-- A `BatchInsert` call — committed or rolled back — preserves every
stored hash and never lowers its date. -/
theorem BatchInsert_pres (env : DBEnv) (s : Store) (cs : List CommitRow)
    {r : CommitRow} (hr : r ∈ s.commits) :
    ∃ r' ∈ (BatchInsert env s cs).1.commits,
      r'.sha = r.sha ∧ r.date ≤ r'.date := by
  unfold BatchInsert
  split
  · exact ⟨r, hr, rfl, le_rfl⟩
  · split
    · exact ⟨r, hr, rfl, le_rfl⟩
    · split
      · exact ⟨r, hr, rfl, le_rfl⟩
      · split
        · split
          · exact ⟨r, hr, rfl, le_rfl⟩
          · exact processChunks_pres env _ hr
        · exact ⟨r, hr, rfl, le_rfl⟩

/-- Every sequence of `BatchInsert` calls preserves every stored hash
and never lowers its date. -/
theorem runBatchInserts_pres (env : DBEnv) :
    ∀ (css : List (List CommitRow)) (s : Store) {r : CommitRow},
      r ∈ s.commits →
      ∃ r' ∈ (runBatchInserts env s css).commits,
        r'.sha = r.sha ∧ r.date ≤ r'.date
  | [], _, r, hr => ⟨r, hr, rfl, le_rfl⟩
  | cs :: rest, s, r, hr => by
    obtain ⟨r1, h1, hsha1, hd1⟩ := BatchInsert_pres env s cs hr
    obtain ⟨r2, h2, hsha2, hd2⟩ := runBatchInserts_pres env rest _ h1
    exact ⟨r2, h2, hsha2.trans hsha1, hd1.trans hd2⟩

/-- A chunk worker holding a record the driver rejects always reports
an error on `errChan`. -/
theorem processChunk_fails (env : DBEnv) :
    ∀ (chunk : List CommitRow) (rows : List CommitRow) {c : CommitRow},
      c ∈ chunk → env.execErr c ≠ none →
      (processChunk env rows chunk).2 ≠ none
  | [], _, c, hc, _ => absurd hc (List.not_mem_nil c)
  | d :: ds, rows, c, hc, hfail => by
    unfold processChunk
    cases hd : env.execErr d with
    | some e => simp [hd]
    | none =>
      simp only [hd]
      rcases List.mem_cons.mp hc with rfl | hds
      · exact absurd hd hfail
      · exact processChunk_fails env ds (upsertCommitRow rows d) hds hfail

/-- If any chunk holds a record the driver rejects, the collected error
list after all chunks complete is nonempty. -/
theorem processChunks_fails (env : DBEnv) :
    ∀ (chunks : List (List CommitRow)) (rows : List CommitRow)
      {ch : List CommitRow} {c : CommitRow},
      ch ∈ chunks → c ∈ ch → env.execErr c ≠ none →
      (processChunks env rows chunks).2 ≠ []
  | [], _, _, _, hch, _, _ => absurd hch (List.not_mem_nil _)
  | ch' :: chs, rows, ch, c, hch, hc, hfail => by
    unfold processChunks
    rcases List.mem_cons.mp hch with rfl | hchs
    · have hstep := processChunk_fails env ch rows hc hfail
      cases h2 : (processChunk env rows ch).2 with
      | some e => simp [h2]
      | none => exact absurd h2 hstep
    · have hrest :=
        processChunks_fails env chs (processChunk env rows ch').1 hchs hc hfail
      cases h2 : (processChunk env rows ch').2 with
      | some e => simp [h2]
      | none => simpa [h2] using hrest

/-- C1: a page request that receives the rate-limit response (403 with
`X-RateLimit-Remaining: 0`, reset time 3600) makes the client block
until the reset time — but the claimed retry never happens: the call
issues exactly one request, never consumes the follow-up response, and
returns the status-code error of the rate-limited response instead of
the retry's records.  The second conjunct records why: `handleRateLimit`
always returns nil, so `FetchCommits` falls through to the status check
on the same 403 response. -/
theorem fetchCommits_rateLimit_waits_but_never_retries :
    FetchCommits [rateLimitedResponse, afterResetResponse] =
      { result := .error (.errorf "failed to fetch commits: status code"),
        requests := 1, waitedUntil := [3600] } ∧
    (∀ resp : HttpResponse, (handleRateLimit resp).2 = none) := by
  refine ⟨rfl, fun resp => ?_⟩
  unfold handleRateLimit
  split <;> rfl

/-- C3: on the repository's own pagination fixture — page 1 holding one
commit plus the `rel="next"` Link header, page 2 holding one commit and
no Link header — `FetchCommits` returns a single record from a single
request, because `containsNextPage` only accepts a Link header whose
last character is `>` and a `rel="next"` header ends in a quote. -/
theorem fetchCommits_pagination_stops_after_page_one :
    containsNextPage
      "<https://api.github.com/repos/test-owner/test-repo/commits?page=2>; rel=\"next\"" =
      false ∧
    FetchCommits [pageOneResponse, pageTwoResponse] =
      { result := .ok [sampleCommit1], requests := 1, waitedUntil := [] } := by
  exact ⟨rfl, rfl⟩

/-- C2: a `BatchInsert` of a record whose hash is already stored with a
strictly newer timestamp leaves the whole store — the stored timestamp
and every other field of that record — unchanged, and the call still
succeeds; and across every sequence of `BatchInsert` calls each stored
hash survives with a non-decreasing persisted timestamp. -/
theorem batchInsert_stale_date_noop_and_monotone
    (env : DBEnv) (s : Store) (c : CommitRow)
    (hbegin : env.beginErr = none) (hprep : env.prepareErr = none)
    (hcommit : env.commitErr = none) (hexec : env.execErr c = none)
    (hstored : ∃ r ∈ s.commits, r.sha = c.sha)
    (hstale : ∀ r ∈ s.commits, r.sha = c.sha → c.date < r.date) :
    BatchInsert env s [c] = (s, none) ∧
    ∀ (env2 : DBEnv) (css : List (List CommitRow)) (s2 : Store)
      (r : CommitRow), r ∈ s2.commits →
      ∃ r' ∈ (runBatchInserts env2 s2 css).commits,
        r'.sha = r.sha ∧ r.date ≤ r'.date := by
  refine ⟨?_, fun env2 css s2 r hr => runBatchInserts_pres env2 css s2 hr⟩
  have hany : s.commits.any (fun r => r.sha = c.sha) = true := by
    obtain ⟨r, hr, hsha⟩ := hstored
    exact List.any_eq_true.mpr ⟨r, hr, by simp [hsha]⟩
  have hupsert : upsertCommitRow s.commits c = s.commits := by
    unfold upsertCommitRow
    rw [if_pos hany]
    have : ∀ r ∈ s.commits,
        (if r.sha = c.sha ∧ r.date < c.date then
          ({ r with
             message := c.message, authorName := c.authorName,
             date := c.date, url := c.url } : CommitRow)
         else r) = r := by
      intro r hr
      rw [if_neg]
      rintro ⟨hsha, hlt⟩
      exact absurd hlt (not_lt_of_gt (hstale r hr hsha))
    rw [List.map_congr_left this]
    simp
  simp [BatchInsert, hbegin, hprep, hcommit, chunkList_cons, chunkList_nil,
    processChunks, processChunk, hexec, hupsert]

/-- Witness for C2: with an accepting driver, a store holding hash
`abc` at date 5, and a re-observed `abc` record at date 3, the
hypotheses hold and the call returns the store unchanged. -/
theorem batchInsert_stale_date_noop_and_monotone_witness :
    (∃ r ∈ storeWithAbcAt5.commits, r.sha = staleAbcCommit.sha) ∧
    (∀ r ∈ storeWithAbcAt5.commits,
      r.sha = staleAbcCommit.sha → staleAbcCommit.date < r.date) ∧
    BatchInsert allOkEnv storeWithAbcAt5 [staleAbcCommit] =
      (storeWithAbcAt5, none) :=
  ⟨by decide, by decide,
    (batchInsert_stale_date_noop_and_monotone allOkEnv storeWithAbcAt5
      staleAbcCommit rfl rfl rfl rfl (by decide) (by decide)).1⟩

/-- C4, counterexample to the claimed error kind: with a driver that
rejects the single record of the call, `BatchInsert` rolls back (the
store is unchanged) but the returned error is the plain aggregate
`errors occurred while inserting commits`, which does not match
`ErrTransactionFailed` under `errors.Is`. -/
theorem batchInsert_failure_error_not_transactionFailed :
    BatchInsert failingEnv storeWithAbcAt5 [rejectedCommit] =
      (storeWithAbcAt5,
        some (.errorf "errors occurred while inserting commits")) ∧
    errorsIs (.errorf "errors occurred while inserting commits")
      (.sentinel .transactionFailed) = false := by
  constructor
  · simp [BatchInsert, failingEnv, chunkList_cons, chunkList_nil,
      processChunks, processChunk, rejectedCommit]
  · rfl

/-- C4 as amended: when any record of any chunk fails, the whole
transaction is rolled back — the stored state is unchanged, and indeed
every failing `BatchInsert` leaves the store unchanged — and the
returned error is the plain aggregate built from the per-chunk errors
collected after all chunks complete, not `TransactionFailed` (which the
code reserves for `BeginTx`/`Commit` failures). -/
theorem batchInsert_failure_atomic_plain_aggregate
    (env : DBEnv) (s : Store) (cs : List CommitRow) (c : CommitRow)
    (hbegin : env.beginErr = none) (hprep : env.prepareErr = none)
    (hc : c ∈ cs) (hfail : env.execErr c ≠ none) :
    BatchInsert env s cs =
      (s, some (.errorf "errors occurred while inserting commits")) ∧
    (∀ (env2 : DBEnv) (s2 : Store) (cs2 : List CommitRow),
      (BatchInsert env2 s2 cs2).2 ≠ none → (BatchInsert env2 s2 cs2).1 = s2) := by
  constructor
  · obtain ⟨ch, hch, hcch⟩ := chunkList_covers hc
    have herrs := processChunks_fails env (chunkList cs) s.commits hch hcch hfail
    have hne : cs.isEmpty = false := by
      cases cs with
      | nil => exact absurd hc (List.not_mem_nil c)
      | cons d ds => rfl
    unfold BatchInsert
    simp only [hne, Bool.false_eq_true, if_false, hbegin, hprep]
    rw [if_neg herrs]
  · intro env2 s2 cs2 h2
    have halt : (BatchInsert env2 s2 cs2).2 = none ∨
        (BatchInsert env2 s2 cs2).1 = s2 := by
      unfold BatchInsert
      split
      · exact .inl rfl
      · split
        · exact .inr rfl
        · split
          · exact .inr rfl
          · split
            · split
              · exact .inr rfl
              · exact .inl rfl
            · exact .inr rfl
    exact halt.resolve_left h2

/-- Witness for C4 as amended: the rejected record is in the call's
list, the driver rejects it, and the call returns the unchanged store
with the plain aggregate error. -/
theorem batchInsert_failure_atomic_plain_aggregate_witness :
    rejectedCommit ∈ [rejectedCommit] ∧
    failingEnv.execErr rejectedCommit ≠ none ∧
    BatchInsert failingEnv storeWithAbcAt5 [rejectedCommit] =
      (storeWithAbcAt5,
        some (.errorf "errors occurred while inserting commits")) :=
  ⟨by decide, by decide,
    (batchInsert_failure_atomic_plain_aggregate failingEnv storeWithAbcAt5
      [rejectedCommit] rejectedCommit rfl rfl (by decide) (by decide)).1⟩

/-- C5: during one monitoring tick, a repository whose worker fails —
whether `GetLatestDate` errored or the sync callback did — contributes
its error to the tick's aggregate error list, while every repository
whose worker succeeds is still invoked in the same tick; and every
scheduled tick runs `checkRepositories` on its own snapshot regardless
of earlier ticks' failures. -/
theorem monitoring_tick_isolates_failures
    (s : Store) (cb : String → Nat → Option GoError) (r1 r2 : RepoRow)
    (e : GoError) (p : String × Nat)
    (h1 : r1 ∈ s.repos) (h2 : r2 ∈ s.repos)
    (hw1 : (repoWorker s cb r1).1 = some e)
    (hw2 : (repoWorker s cb r2).2 = some p) :
    e ∈ (checkRepositories s cb).1.errors ∧
    p ∈ (checkRepositories s cb).1.invoked ∧
    ∀ (snaps : List Store) (i : Nat),
      (MonitorRepositoryChanges snaps cb)[i]? =
        (snaps[i]?).map (fun s2 => checkRepositories s2 cb) := by
  refine ⟨?_, ?_, ?_⟩
  · exact List.mem_filterMap.mpr ⟨r1, h1, hw1⟩
  · exact List.mem_filterMap.mpr ⟨r2, h2, hw2⟩
  · intro snaps i
    simp [MonitorRepositoryChanges]

/-- Witness for C5: in a two-repository store where the callback fails
for `repo1` and succeeds for `repo2`, the tick collects `repo1`'s
wrapped error and still invokes `repo2` with its latest date. -/
theorem monitoring_tick_isolates_failures_witness :
    repo1Row ∈ storeTwoRepos.repos ∧
    (repoWorker storeTwoRepos cbFailRepo1 repo1Row).1 =
      some (.wrapCtx "error processing repository" (.errorf "boom")) ∧
    (.wrapCtx "error processing repository" (.errorf "boom") : GoError) ∈
      (checkRepositories storeTwoRepos cbFailRepo1).1.errors ∧
    ("repo2", 20) ∈ (checkRepositories storeTwoRepos cbFailRepo1).1.invoked := by
  refine ⟨by decide, by decide, ?_, ?_⟩
  · exact (monitoring_tick_isolates_failures storeTwoRepos cbFailRepo1
      repo1Row repo2Row
      (.wrapCtx "error processing repository" (.errorf "boom"))
      ("repo2", 20) (by decide) (by decide) (by decide) (by decide)).1
  · exact (monitoring_tick_isolates_failures storeTwoRepos cbFailRepo1
      repo1Row repo2Row
      (.wrapCtx "error processing repository" (.errorf "boom"))
      ("repo2", 20) (by decide) (by decide) (by decide) (by decide)).2.1

/-- C6: when every upstream step succeeds and the commit fetch returns
an empty list, both orchestrator variants return nil success without
invoking `BatchInsert`. -/
theorem process_empty_fetch_is_noop_success
    (c : Collab) (owner name : String) (n m : Nat)
    (repo : RepoResponse) (stored : RepoRow)
    (hrepo : c.fetchRepo = .ok repo)
    (hstore : ∀ rm, c.storeRepositoryErr rm = none)
    (hget : c.getByName = .ok stored)
    (hfetch : c.fetchCommits = .ok []) :
    Process c false owner name n = { result := none, batchInserted := none } ∧
    processRepository c false owner name m =
      { result := none, batchInserted := none } := by
  constructor
  · simp [Process, hrepo, hstore, hget, hfetch]
  · simp [processRepository, hrepo, hstore, hget, hfetch]

/-- Witness for C6: the concrete collaborators with an empty commit
fetch make both orchestrator variants succeed with no batch insert. -/
theorem process_empty_fetch_is_noop_success_witness :
    collabEmptyFetch.fetchCommits = .ok [] ∧
    Process collabEmptyFetch false "acme" "widget" 0 =
      { result := none, batchInserted := none } ∧
    processRepository collabEmptyFetch false "acme" "widget" 0 =
      { result := none, batchInserted := none } := by
  have h := process_empty_fetch_is_noop_success collabEmptyFetch "acme"
    "widget" 0 0 sampleRepoResponse widgetRepoRow rfl (fun _ => rfl) rfl rfl
  exact ⟨rfl, h.1, h.2⟩

/-- C7: for every nonempty repository name unknown to the store,
`GetLatestDate` reports the wrapped `ErrNoCommitsFound` — the same
error kind as for an existing repository without commits — and that
error does not match `ErrRepositoryNotFound`; the unknown-repository
outcome the claim requires is never produced, because the ungrouped
`MAX` aggregate always yields one row and the `sql.ErrNoRows` branch is
dead. -/
theorem getLatestDate_unknown_repo_reports_noCommitsFound
    (s : Store) (name : String) (hname : name ≠ "")
    (hunknown : ∀ r ∈ s.repos, r.name ≠ name) :
    GetLatestDate s name =
      .error (.wrapCtx "repository" (.sentinel .noCommitsFound)) ∧
    errorsIs (.wrapCtx "repository" (.sentinel .noCommitsFound))
      (.sentinel .repositoryNotFound) = false := by
  refine ⟨?_, rfl⟩
  have hjoin : joinedDates s name = [] := by
    unfold joinedDates
    have : s.commits.filter
        (fun c => s.repos.any (fun r => c.repoId = r.id ∧ r.name = name)) = [] := by
      rw [List.filter_eq_nil_iff]
      intro c hc
      simp only [List.any_eq_true, decide_eq_true_eq]
      rintro ⟨r, hr, hid, hnm⟩
      exact hunknown r hr hnm
    rw [this, List.map_nil]
  unfold GetLatestDate aggGetContext maxDateRow
  rw [if_neg hname, hjoin]
  rfl

/-- Witness for C7: on the empty database and the name `non-existent`
(the repository's own not-found fixture name), the result is the
wrapped no-commits error. -/
theorem getLatestDate_unknown_repo_witness :
    ("non-existent" : String) ≠ "" ∧
    GetLatestDate emptyStore "non-existent" =
      .error (.wrapCtx "repository" (.sentinel .noCommitsFound)) :=
  ⟨by decide,
    (getLatestDate_unknown_repo_reports_noCommitsFound emptyStore
      "non-existent" (by decide) (by decide)).1⟩

/-- C8, counterexample: storing snapshot A (creation time 1) and then
snapshot B (same identity, creation time 2) leaves one row whose
`created_at` is still 1 — not every field of the row equals the second
snapshot's values, because the upsert's update list omits
`created_at`. -/
theorem storeRepository_keeps_first_createdAt :
    (((StoreRepository (StoreRepository emptyStore snapshotA).1
        snapshotB).1).repos.map (fun r => r.createdAt)) = [1] ∧
    snapshotB.createdAt = 2 := by
  decide

/-- C8 as amended: upserting twice with the same valid identity into a
store not yet holding it yields exactly one row with that identity; its
url, update time, description, language and counters equal the second
snapshot's values, while `created_at` keeps the first snapshot's value
and `id` is the SERIAL value assigned on first insert. -/
theorem storeRepository_upsert_is_idempotent_overwrite
    (s : Store) (snapA snapB : RepoRow) (nm ow : String)
    (hnm : nm ≠ "") (how : ow ≠ "")
    (hAn : snapA.name = nm) (hAo : snapA.owner = ow)
    (hBn : snapB.name = nm) (hBo : snapB.owner = ow)
    (hfresh : ∀ r ∈ s.repos, ¬(r.name = nm ∧ r.owner = ow)) :
    ((StoreRepository (StoreRepository s snapA).1 snapB).1).repos.filter
        (fun r => r.name = nm ∧ r.owner = ow) =
      [{ id := s.nextId, name := nm, owner := ow,
         description := snapB.description, url := snapB.url,
         language := snapB.language, forksCount := snapB.forksCount,
         starsCount := snapB.starsCount,
         openIssuesCount := snapB.openIssuesCount,
         watchersCount := snapB.watchersCount,
         createdAt := snapA.createdAt, updatedAt := snapB.updatedAt }] := by
  have hAany : s.repos.any
      (fun r => r.name = snapA.name ∧ r.owner = snapA.owner) = false := by
    rw [List.any_eq_false]
    intro r hr
    simp only [decide_eq_true_eq, hAn, hAo]
    exact hfresh r hr
  have h1 : StoreRepository s snapA =
      ({ s with
         repos := s.repos ++ [{ snapA with id := s.nextId }],
         nextId := s.nextId + 1 }, none) := by
    unfold StoreRepository
    rw [if_neg (by rw [hAn, hAo]; exact not_or.mpr ⟨hnm, how⟩), if_neg]
    rw [hAany]
    exact Bool.false_ne_true
  rw [h1]
  have hrowA : ({ snapA with id := s.nextId } : RepoRow).name = snapB.name ∧
      ({ snapA with id := s.nextId } : RepoRow).owner = snapB.owner := by
    exact ⟨by rw [hAn, hBn], by rw [hAo, hBo]⟩
  have hBany : (s.repos ++ [{ snapA with id := s.nextId }]).any
      (fun r => r.name = snapB.name ∧ r.owner = snapB.owner) = true := by
    rw [List.any_eq_true]
    exact ⟨{ snapA with id := s.nextId },
      List.mem_append_right _ (List.mem_cons_self ..),
      by simpa using hrowA⟩
  unfold StoreRepository
  rw [if_neg (by rw [hBn, hBo]; exact not_or.mpr ⟨hnm, how⟩), if_pos hBany]
  simp only [List.map_append, List.filter_append]
  have hmap : s.repos.map (fun r =>
      if r.name = snapB.name ∧ r.owner = snapB.owner then
        ({ r with
           url := snapB.url, updatedAt := snapB.updatedAt,
           description := snapB.description, language := snapB.language,
           forksCount := snapB.forksCount, starsCount := snapB.starsCount,
           openIssuesCount := snapB.openIssuesCount,
           watchersCount := snapB.watchersCount } : RepoRow)
      else r) = s.repos := by
    have : ∀ r ∈ s.repos, (if r.name = snapB.name ∧ r.owner = snapB.owner then
        ({ r with
           url := snapB.url, updatedAt := snapB.updatedAt,
           description := snapB.description, language := snapB.language,
           forksCount := snapB.forksCount, starsCount := snapB.starsCount,
           openIssuesCount := snapB.openIssuesCount,
           watchersCount := snapB.watchersCount } : RepoRow)
      else r) = r := by
      intro r hr
      rw [if_neg]
      rw [hBn, hBo]
      exact hfresh r hr
    rw [List.map_congr_left this]
    simp
  rw [hmap]
  have hflt : s.repos.filter (fun r => r.name = nm ∧ r.owner = ow) = [] := by
    rw [List.filter_eq_nil_iff]
    intro r hr
    simp only [decide_eq_true_eq]
    exact hfresh r hr
  rw [hflt]
  simp only [List.map_cons, List.map_nil, List.nil_append]
  rw [if_pos hrowA]
  rw [List.filter_cons_of_pos (by simp [hAn, hAo, hBn, hBo])]
  simp [hAn, hAo]

/-- Witness for C8 as amended: storing snapshot A then snapshot B of
identity (acme, widget) into the empty store leaves exactly that one
merged row. -/
theorem storeRepository_upsert_is_idempotent_overwrite_witness :
    (∀ r ∈ emptyStore.repos, ¬(r.name = "widget" ∧ r.owner = "acme")) ∧
    ((StoreRepository (StoreRepository emptyStore snapshotA).1
        snapshotB).1).repos.filter
        (fun r => r.name = "widget" ∧ r.owner = "acme") =
      [{ id := emptyStore.nextId, name := "widget", owner := "acme",
         description := snapshotB.description, url := snapshotB.url,
         language := snapshotB.language, forksCount := snapshotB.forksCount,
         starsCount := snapshotB.starsCount,
         openIssuesCount := snapshotB.openIssuesCount,
         watchersCount := snapshotB.watchersCount,
         createdAt := snapshotA.createdAt,
         updatedAt := snapshotB.updatedAt }] :=
  ⟨by decide,
    storeRepository_upsert_is_idempotent_overwrite emptyStore snapshotA
      snapshotB "widget" "acme" (by decide) (by decide) rfl rfl rfl rfl
      (by decide)⟩

/-- C9, counterexample: in a store where `widget` exists with no
commits and the callback always succeeds, the tick does not silently
skip the entity with a metadata refresh — it records the wrapped
no-commits error in the aggregate (the `==` comparison against the bare
sentinel never matches the wrapped error), invokes nothing, and the
tick returns the aggregate error. -/
theorem checkRepositories_noCommits_becomes_tick_error :
    checkRepositories storeNoCommits cbOk =
      ({ errors := [.wrapCtx "error getting latest date for repository"
            (.wrapCtx "repository" (.sentinel .noCommitsFound))],
         invoked := [] },
       some (.errorf "errors occurred while processing repositories")) := by
  decide

/-- C9 as amended: an entity whose latest-date query finds no commits
is not skipped and gets no metadata refresh — its worker pushes the
wrapped no-commits error onto the tick's aggregate list and performs no
invocation; an entity with a computed cursor gets the sync callback
with that cursor. -/
theorem monitoring_noCommits_entity_reported_as_error
    (s : Store) (cb : String → Nat → Option GoError) (r : RepoRow)
    (hname : r.name ≠ "") (hempty : maxDateRow s r.name = none) :
    repoWorker s cb r =
      (some (.wrapCtx "error getting latest date for repository"
        (.wrapCtx "repository" (.sentinel .noCommitsFound))), none) ∧
    (∀ (s2 : Store) (cb2 : String → Nat → Option GoError) (r2 : RepoRow)
      (d : Nat), GetLatestDate s2 r2.name = .ok d → cb2 r2.name d = none →
      repoWorker s2 cb2 r2 = (none, some (r2.name, d))) := by
  constructor
  · unfold repoWorker GetLatestDate aggGetContext
    rw [if_neg hname, hempty]
    rfl
  · intro s2 cb2 r2 d hok hcb
    unfold repoWorker
    rw [hok]
    dsimp only
    rw [hcb]

/-- Witness for C9 as amended: the `widget` store without commits and
the always-succeeding callback exhibit the error-reporting worker. -/
theorem monitoring_noCommits_entity_reported_as_error_witness :
    widgetRepoRow.name ≠ "" ∧
    maxDateRow storeNoCommits widgetRepoRow.name = none ∧
    repoWorker storeNoCommits cbOk widgetRepoRow =
      (some (.wrapCtx "error getting latest date for repository"
        (.wrapCtx "repository" (.sentinel .noCommitsFound))), none) :=
  ⟨by decide, by decide,
    (monitoring_noCommits_entity_reported_as_error storeNoCommits cbOk
      widgetRepoRow (by decide) (by decide)).1⟩

/-- C10: both lookup operations key on the repository name alone.
Rewriting every stored owner arbitrarily changes neither the result of
`GetLatestDate` nor the row (by id) selected by `GetByName`; and in the
concrete store where alice and bob both own a repository named `r`,
`GetLatestDate "r"` reports the maximum date across both owners' commits
while `GetByName "r"` returns alice's row — the first match — whichever
owner was meant. -/
theorem lookups_key_on_name_only
    (s : Store) (n : String) (f : RepoRow → String) :
    GetLatestDate
        { s with repos := s.repos.map (fun r => { r with owner := f r }) } n =
      GetLatestDate s n ∧
    ((GetByName
        { s with repos := s.repos.map (fun r => { r with owner := f r }) }
        n).toOption.map (fun r => r.id)) =
      ((GetByName s n).toOption.map (fun r => r.id)) ∧
    GetLatestDate storeTwoOwners "r" = .ok 9 ∧
    GetByName storeTwoOwners "r" = .ok aliceRepoRow := by
  refine ⟨?_, ?_, by decide, by decide⟩
  · have hjd : joinedDates
        { s with repos := s.repos.map (fun r => { r with owner := f r }) } n =
        joinedDates s n := by
      unfold joinedDates
      simp only [List.any_map]
      rfl
    unfold GetLatestDate aggGetContext maxDateRow
    rw [hjd]
  · unfold GetByName
    by_cases hn : n = ""
    · rw [if_pos hn, if_pos hn]
    · rw [if_neg hn, if_neg hn]
      simp only [List.find?_map]
      cases hfind : s.repos.find? (fun r => r.name = n) with
      | none =>
        have : s.repos.find?
            ((fun r : RepoRow => decide (r.name = n)) ∘
              (fun r => { r with owner := f r })) = none := hfind
        rw [this]
        rfl
      | some r =>
        have : s.repos.find?
            ((fun r : RepoRow => decide (r.name = n)) ∘
              (fun r => { r with owner := f r })) = some r := hfind
        rw [this]
        rfl

end GithubApiFetch
